import Mathlib

/-!
Shallow embedding of the task/pipeline core of `src/App.jsx`:
the progress-simulation tick, the chat pipeline deriver, the reply
planner and the task factory, together with proofs about the claims
of the specification.

Modelling conventions:
* JS numbers that hold progress values are modelled as `ℚ`.
* `Math.random()` is modelled as an injected source `rng : ℕ → ℚ`
  together with an explicit draw index that is threaded through the
  computation exactly in the order the source draws (including the
  short-circuit in `&&` chains, which skips a draw).
* Timestamps (ISO strings / `Date.now()`) are modelled as integer
  epoch milliseconds.
* The module-level `idCounter` is modelled as explicit counter state
  passed to and returned from `makeTask`.
* Code that can throw a `TypeError` is modelled with `Option`
  (`none` = the exception propagates).
-/

namespace OpsCore

/-- A chat message: `{ role, text }` with `role ∈ {"user","ai"}`. -/
structure Message where
  role : String
  text : String
deriving DecidableEq

/-- A pipeline step object as built by the source code. `progress` and
`duration` are `Option` because the JS objects may lack these fields. -/
structure Step where
  name : String
  status : String
  llm : String
  progress : Option ℚ := none
  duration : Option String := none
deriving DecidableEq

/-- A task object. `startTime` is epoch milliseconds (the source stores an
ISO string; only its time value is ever used, via `calcDuration`). -/
structure Task where
  id : ℕ
  name : String
  status : String
  progress : ℚ
  user : String
  llm : String
  startTime : ℤ
  duration : Option String := none
  steps : List Step
deriving DecidableEq

/-- JS truthiness-based defaulting `x || d` for an optional number:
`undefined` and `0` are falsy and give the default. -/
def jsOr (p : Option ℚ) (d : ℚ) : ℚ :=
  match p with
  | none => d
  | some x => if x = 0 then d else x

/-- JS truthiness-based defaulting `x || d` for an optional string:
`undefined` and `""` are falsy and give the default. -/
def jsOrStr (o : Option String) (d : String) : String :=
  match o with
  | none => d
  | some s => if s = "" then d else s

/-- Model of JS `text.split("\n")` (worker for `splitLines`). -/
def splitLinesAux : List Char → List Char → List String
  | [], acc => [String.mk acc.reverse]
  | c :: cs, acc =>
      if c = '\n' then String.mk acc.reverse :: splitLinesAux cs []
      else splitLinesAux cs (c :: acc)

/-- Model of JS `text.split("\n")`. -/
def splitLines (s : String) : List String :=
  splitLinesAux s.data []

/-- Does the list start with the character `'.'`? -/
def headIsDot : List Char → Bool
  | [] => false
  | c :: _ => c == '.'

/-- Model of the JS regex test `/1\./.test(text)`: the text contains the
two-character substring `"1."` somewhere (no anchoring at all). -/
def containsOneDot : List Char → Bool
  | [] => false
  | c :: cs => (c == '1' && headIsDot cs) || containsOneDot cs

/-- After an initial digit: accept more digits until a `'.'` is found.
Worker for `testNumbered`. -/
def digitsThenDot : List Char → Bool
  | [] => false
  | c :: cs => c == '.' || (c.isDigit && digitsThenDot cs)

/-- Model of the JS regex test `/^\d+\./.test(line)`: one or more digits at
the start of the line, immediately followed by a period (no space
required after the period). -/
def testNumbered : List Char → Bool
  | [] => false
  | c :: cs => c.isDigit && digitsThenDot cs

/-- Model of JS `str.split(sep)` for a two-character separator `[a, b]`:
non-overlapping occurrences are removed left to right and the pieces in
between are returned. -/
def splitOnPair (a b : Char) : List Char → List (List Char)
  | c :: d :: rest =>
      if c = a ∧ d = b then [] :: splitOnPair a b rest
      else
        match splitOnPair a b (d :: rest) with
        | s :: ss => (c :: s) :: ss
        | [] => [[c]]
  | l => [l]

/-- Model of JS `str.split(sep)` for a three-character separator `[a, b, c]`. -/
def splitOnTriple (a b c : Char) : List Char → List (List Char)
  | x :: y :: z :: rest =>
      if x = a ∧ y = b ∧ z = c then [] :: splitOnTriple a b c rest
      else
        match splitOnTriple a b c (y :: z :: rest) with
        | s :: ss => (x :: s) :: ss
        | [] => [[x]]
  | l => [l]

/-- Model of JS `str.trim()`: strip whitespace from both ends. -/
def jsTrim (s : String) : String :=
  String.mk (((s.data.dropWhile Char.isWhitespace).reverse.dropWhile
    Char.isWhitespace).reverse)

/-- One line of the `lines.map` inside `derivePipeline`:
`const [idxRest, rest] = l.split(". "); const [namePart, llmPart] = rest.split(" — ");`
(the split separators are `". "` and `" — "`, an em-dash between spaces).
`none` models the `TypeError` thrown when `rest` is `undefined`, i.e. when
the line contains no `". "` occurrence.  (`rest.split` always returns a
non-empty array, so `namePart` itself cannot be `undefined`; `headD` is
only a total way to take its head.) -/
def parseLine (l : String) : Option Step :=
  match splitOnPair '.' ' ' l.data with
  | _ :: rest :: _ =>
      let parts := (splitOnTriple ' ' '—' ' ' rest).map String.mk
      some { name := jsTrim (parts.headD "")
             status := "queued"
             llm := jsTrim (jsOrStr parts[1]? "GPT-4")
             progress := none
             duration := none }
  | _ => none

/-- `lines.map parseLine`, propagating a thrown `TypeError` (`none`). -/
def parseAll : List String → Option (List Step)
  | [] => some []
  | l :: ls =>
      match parseLine l with
      | none => none
      | some s =>
          match parseAll ls with
          | none => none
          | some ss => some (s :: ss)

/-- Model of `if (steps.length) steps[0].status = "running"`. -/
def setFirstRunning : List Step → List Step
  | [] => []
  | s :: ss => { s with status := "running" } :: ss

/-- Model of `[...messages].reverse().find(m => m.role=="ai" && /1\./.test(m.text))`. -/
def planMessage (messages : List Message) : Option Message :=
  messages.reverse.find? fun m => m.role == "ai" && containsOneDot m.text.data

/-- Model of `lastPlan.text.split("\n").filter(l => /^\d+\./.test(l))`. -/
def numberedLines (text : String) : List String :=
  (splitLines text).filter fun l => testNumbered l.data

/-- Result of `derivePipeline`: `undefined`, a thrown `TypeError`, or a
step array (possibly empty). -/
inductive DeriveResult where
  | noPlan : DeriveResult
  | thrown : DeriveResult
  | derived : List Step → DeriveResult
deriving DecidableEq

/-- Model of the source `derivePipeline(messages)`. -/
def derivePipeline (messages : List Message) : DeriveResult :=
  match planMessage messages with
  | none => DeriveResult.noPlan
  | some m =>
      match parseAll (numberedLines m.text) with
      | none => DeriveResult.thrown
      | some steps => DeriveResult.derived (setFirstRunning steps)

/-- The fixed step/worker table `base` inside the source `planReply`. -/
def planBase : List (String × String) :=
  [("Ingest Inputs", "GPT-4"),
   ("Plan & Branch", "Claude Sonnet 4.5"),
   ("Execute Tools", "Kimi K2"),
   ("Verify & Report", "GPT-4")]

/-- Model of ``base.map((s,i)=>`${i+1}. ${s.name} — ${s.llm}`)``. -/
def planLines : List String :=
  ((List.range planBase.length).zip planBase).map fun p =>
    toString (p.1 + 1) ++ ". " ++ p.2.1 ++ " — " ++ p.2.2

/-- Model of the source `planReply(text)` (the mock AI proposal). -/
def planReply (text : String) : String :=
  "Here is a concise pipeline for “" ++ text ++ "”:\n\n" ++
    String.intercalate "\n" planLines ++
    "\n\nYou can start as-is or ask me to adjust steps/LLMs."

/-- The fixed four-stage default pipeline inside `makeTask`. -/
def defaultPipeline : List Step :=
  [{ name := "Ingest Requirements", status := "running", llm := "GPT-4",
     progress := some 15, duration := none },
   { name := "Spec Synthesis", status := "queued", llm := "Claude Sonnet 4.5",
     progress := none, duration := none },
   { name := "Ops Plan + Checks", status := "queued", llm := "Kimi K2",
     progress := none, duration := none },
   { name := "Execution & Verify", status := "queued", llm := "GPT-4",
     progress := none, duration := none }]

/-- Model of the source `makeTask(name, user, steps)`.  The module-level
`idCounter` is passed in explicitly and the updated counter is returned
(`++idCounter` pre-increments, so the issued id equals the new counter);
`start` is the injected creation time. -/
def makeTask (name user : String) (steps : Option (List Step)) (start : ℤ)
    (idCounter : ℕ) : Task × ℕ :=
  let pipeline := steps.getD defaultPipeline
  ({ id := idCounter + 1
     name := name
     status := "running"
     progress := 5
     user := if user = "" then "You" else user
     llm := jsOrStr ((pipeline.find? fun s => s.status == "running").map Step.llm) "GPT-4"
     startTime := start
     duration := some "0s"
     steps := pipeline }, idCounter + 1)

/-- Model of the source `calcDuration(start)` with the current time `now`
injected; both times are epoch milliseconds. -/
def calcDuration (start now : ℤ) : String :=
  let sec : ℤ := max 0 (round ((now - start : ℚ) / 1000))
  if sec < 60 then toString sec ++ "s"
  else toString (sec / 60) ++ "m " ++ toString (sec % 60) ++ "s"

/-- One iteration of `task.steps.map(step => ...)` inside the tick effect,
for a single step.  `progress` is the already-incremented task progress of
this tick; `i` is the next unconsumed index of the random source (note the
JS `&&` short-circuit: a queued step consumes no draw when
`progress ≤ 10`). -/
def tickStep (rng : ℕ → ℚ) (now start : ℤ) (progress : ℚ) (s : Step) (i : ℕ) :
    Step × ℕ :=
  if s.status = "running" then
    let sp := min 100 (jsOr s.progress 0 + rng i * 10)
    ({ s with progress := some sp
              status := if 100 ≤ sp then "complete" else "running"
              duration := some (calcDuration start now) }, i + 1)
  else if s.status = "queued" then
    if 10 < progress then
      if 7/10 < rng i then
        ({ s with status := "running"
                  progress := some (jsOr s.progress 5)
                  duration := some (calcDuration start now) }, i + 1)
      else (s, i + 1)
    else (s, i)
  else (s, i)

/-- `task.steps.map(step => ...)`, threading the random-draw index. -/
def tickSteps (rng : ℕ → ℚ) (now start : ℤ) (progress : ℚ) :
    List Step → ℕ → List Step × ℕ
  | [], i => ([], i)
  | s :: ss, i =>
      let r := tickStep rng now start progress s i
      let rs := tickSteps rng now start progress ss r.2
      (r.1 :: rs.1, rs.2)

/-- One tick of the simulation effect for a single task
(the body of `prev.map(task => ...)`). -/
def tickTask (rng : ℕ → ℚ) (i : ℕ) (now : ℤ) (task : Task) : Task × ℕ :=
  if task.status ≠ "running" then (task, i)
  else
    let progress := min 100 (task.progress + rng i * 6)
    let r := tickSteps rng now task.startTime progress task.steps (i + 1)
    let complete : Bool :=
      (r.1.all fun s => s.status == "complete") || decide (100 ≤ progress)
    ({ task with
        progress := if complete then 100 else progress
        status := if complete then "complete" else "running"
        steps := r.1
        duration := some (calcDuration task.startTime now) }, r.2)

/-- One tick over the whole task collection (`setTasks(prev => prev.map(...))`). -/
def tickTasks (rng : ℕ → ℚ) (now : ℤ) : List Task → ℕ → List Task × ℕ
  | [], i => ([], i)
  | t :: ts, i =>
      let r := tickTask rng i now t
      let rs := tickTasks rng now ts r.2
      (r.1 :: rs.1, rs.2)

/-- `n` consecutive ticks of the collection; `now k` is the clock time of
the `k`-th remaining tick. -/
def tickIter (rng : ℕ → ℚ) (now : ℕ → ℤ) : ℕ → List Task → ℕ → List Task × ℕ
  | 0, ts, i => (ts, i)
  | n + 1, ts, i =>
      let r := tickTasks rng (now n) ts i
      tickIter rng now n r.1 r.2

/-- `n` consecutive ticks applied to a single task. -/
def tickTaskIter (rng : ℕ → ℚ) (now : ℕ → ℤ) : ℕ → Task × ℕ → Task × ℕ
  | 0, p => p
  | n + 1, p => tickTaskIter rng now n (tickTask rng p.2 (now n) p.1)

/-! ## Invariants and helper lemmas -/

/-- The progress value of a step, when present, lies in `[0, 100]`. -/
def stepInRange (s : Step) : Prop := ∀ p ∈ s.progress, 0 ≤ p ∧ p ≤ 100

/-- The overall progress of the task and the progress values of all of
its steps lie in `[0, 100]`. -/
def taskInRange (t : Task) : Prop :=
  (0 ≤ t.progress ∧ t.progress ≤ 100) ∧ ∀ s ∈ t.steps, stepInRange s

/-- The random source only produces values in `[0, 1)`, as `Math.random()`
does. -/
def rngOk (rng : ℕ → ℚ) : Prop := ∀ n, 0 ≤ rng n ∧ rng n < 1

theorem jsOr_nonneg_le (s : Step) (d : ℚ) (hd : 0 ≤ d ∧ d ≤ 100)
    (hs : stepInRange s) : 0 ≤ jsOr s.progress d ∧ jsOr s.progress d ≤ 100 := by
  cases hp : s.progress with
  | none => simpa [jsOr] using hd
  | some x =>
      by_cases hx : x = 0
      · simpa [jsOr, hx] using hd
      · simpa [jsOr, hx] using hs x (by simp [hp])

theorem tickStep_inRange (rng : ℕ → ℚ) (now start : ℤ) (progress : ℚ)
    (s : Step) (i : ℕ) (hr : 0 ≤ rng i) (hs : stepInRange s) :
    stepInRange (tickStep rng now start progress s i).1 := by
  unfold tickStep
  split
  · intro p hp
    simp only [Option.mem_def, Option.some.injEq] at hp
    subst hp
    constructor
    · exact le_min (by norm_num)
        (add_nonneg (jsOr_nonneg_le s 0 (by norm_num) hs).1
          (mul_nonneg hr (by norm_num)))
    · exact min_le_left _ _
  · split
    · split
      · split
        · intro p hp
          simp only [Option.mem_def, Option.some.injEq] at hp
          subst hp
          exact jsOr_nonneg_le s 5 (by norm_num) hs
        · exact hs
      · exact hs
    · exact hs

theorem tickSteps_inRange (rng : ℕ → ℚ) (now start : ℤ) (progress : ℚ)
    (l : List Step) (i : ℕ) (hr : ∀ n, 0 ≤ rng n)
    (hl : ∀ s ∈ l, stepInRange s) :
    ∀ s ∈ (tickSteps rng now start progress l i).1, stepInRange s := by
  induction l generalizing i with
  | nil => simp [tickSteps]
  | cons s ss ih =>
      intro x hx
      simp only [tickSteps, List.mem_cons] at hx
      rcases hx with hx | hx
      · subst hx
        exact tickStep_inRange rng now start progress s i (hr i)
          (hl s (by simp))
      · exact ih _ (fun a ha => hl a (by simp [ha])) x hx

theorem tickTask_inRange (rng : ℕ → ℚ) (i : ℕ) (now : ℤ) (t : Task)
    (hr : ∀ n, 0 ≤ rng n) (ht : taskInRange t) :
    taskInRange (tickTask rng i now t).1 := by
  unfold tickTask
  split
  · exact ht
  · dsimp only
    constructor
    · split
      · norm_num
      · constructor
        · exact le_min (by norm_num)
            (add_nonneg ht.1.1 (mul_nonneg (hr i) (by norm_num)))
        · exact min_le_left _ _
    · exact tickSteps_inRange rng now t.startTime _ t.steps (i + 1) hr ht.2

theorem tickTasks_inRange (rng : ℕ → ℚ) (now : ℤ) (l : List Task) (i : ℕ)
    (hr : ∀ n, 0 ≤ rng n) (hl : ∀ t ∈ l, taskInRange t) :
    ∀ t ∈ (tickTasks rng now l i).1, taskInRange t := by
  induction l generalizing i with
  | nil => simp [tickTasks]
  | cons t ts ih =>
      intro x hx
      simp only [tickTasks, List.mem_cons] at hx
      rcases hx with hx | hx
      · subst hx
        exact tickTask_inRange rng i now t hr (hl t (by simp))
      · exact ih _ (fun a ha => hl a (by simp [ha])) x hx

theorem tickIter_inRange (rng : ℕ → ℚ) (now : ℕ → ℤ) (n : ℕ) (l : List Task)
    (i : ℕ) (hr : ∀ m, 0 ≤ rng m) (hl : ∀ t ∈ l, taskInRange t) :
    ∀ t ∈ (tickIter rng now n l i).1, taskInRange t := by
  induction n generalizing l i with
  | zero => simpa [tickIter] using hl
  | succ n ih =>
      intro x hx
      exact ih _ _ (tickTasks_inRange rng (now n) l i hr hl) x hx

theorem tickTask_not_running (rng : ℕ → ℚ) (i : ℕ) (now : ℤ) (t : Task)
    (h : t.status ≠ "running") : tickTask rng i now t = (t, i) := by
  simp [tickTask, h]

theorem tickStep_complete (rng : ℕ → ℚ) (now start : ℤ) (progress : ℚ)
    (s : Step) (i : ℕ) (h : s.status = "complete") :
    tickStep rng now start progress s i = (s, i) := by
  simp [tickStep, h]

theorem tickSteps_all_complete (rng : ℕ → ℚ) (now start : ℤ) (progress : ℚ)
    (l : List Step) (i : ℕ) (h : ∀ s ∈ l, s.status = "complete") :
    tickSteps rng now start progress l i = (l, i) := by
  induction l generalizing i with
  | nil => simp [tickSteps]
  | cons s ss ih =>
      simp only [tickSteps, tickStep_complete rng now start progress s i
        (h s (by simp)), ih _ (fun a ha => h a (by simp [ha]))]

theorem headIsDot_iff (cs : List Char) :
    headIsDot cs = true ↔ ∃ cs₂, cs = '.' :: cs₂ := by
  cases cs with
  | nil => simp [headIsDot]
  | cons c cs => simp [headIsDot]

theorem containsOneDot_iff (cs : List Char) :
    containsOneDot cs = true ↔ ∃ l r, cs = l ++ '1' :: '.' :: r := by
  induction cs with
  | nil =>
      simp only [containsOneDot, Bool.false_eq_true, false_iff, not_exists]
      intro l r h
      exact absurd h (by simp)
  | cons c cs ih =>
      simp only [containsOneDot, Bool.or_eq_true, Bool.and_eq_true, beq_iff_eq,
        headIsDot_iff, ih]
      constructor
      · rintro (⟨hc, cs₂, hcs⟩ | ⟨l, r, hcs⟩)
        · exact ⟨[], cs₂, by simp [hc, hcs]⟩
        · exact ⟨c :: l, r, by simp [hcs]⟩
      · rintro ⟨l, r, hcs⟩
        cases l with
        | nil =>
            simp only [List.nil_append, List.cons.injEq] at hcs
            exact Or.inl ⟨hcs.1, r, hcs.2⟩
        | cons a l =>
            simp only [List.cons_append, List.cons.injEq] at hcs
            exact Or.inr ⟨l, r, hcs.2⟩

theorem derivePipeline_eq_noPlan_iff (messages : List Message) :
    derivePipeline messages = DeriveResult.noPlan ↔
      planMessage messages = none := by
  unfold derivePipeline
  cases planMessage messages with
  | none => simp
  | some m =>
      cases h : parseAll (numberedLines m.text) with
      | none => simp [h]
      | some steps => simp [h]

theorem find?_append_of_none {α : Type} (p : α → Bool) (l₁ l₂ : List α)
    (h : ∀ x ∈ l₁, ¬ p x = true) :
    List.find? p (l₁ ++ l₂) = List.find? p l₂ := by
  rw [List.find?_append, List.find?_eq_none.2 h, Option.none_or]

theorem planMessage_middle (pre post : List Message) (m : Message)
    (hrole : m.role = "ai") (hsub : containsOneDot m.text.data = true)
    (hpost : ∀ m₂ ∈ post,
      ¬ (m₂.role = "ai" ∧ containsOneDot m₂.text.data = true)) :
    planMessage (pre ++ m :: post) = some m := by
  unfold planMessage
  rw [show (pre ++ m :: post).reverse = post.reverse ++ m :: pre.reverse by
    simp [List.reverse_append]]
  rw [find?_append_of_none _ post.reverse _ ?_]
  · exact List.find?_cons_of_pos _ (by simp [hrole, hsub])
  · intro x hx
    simp only [List.mem_reverse] at hx
    simp only [Bool.and_eq_true, beq_iff_eq, not_and]
    intro ha hb
    exact hpost x hx ⟨ha, hb⟩

theorem containsOneDot_append_right (xs ys : List Char)
    (h : containsOneDot ys = true) : containsOneDot (xs ++ ys) = true := by
  induction xs with
  | nil => simpa using h
  | cons c cs ih => simp [containsOneDot, ih]

/-- Per-line content selected by the source parse: the piece of the line
strictly between the first occurrence of `". "` and the second (i.e. the
second component of the `". "`-split); everything after a second `". "`
occurrence is discarded. -/
def lineContent (l : String) : Option (List Char) :=
  (splitOnPair '.' ' ' l.data)[1]?

/-- The step built from the selected content of a line: split the content on
`" — "`, the trimmed first part is the name, the trimmed second part is
the worker label (defaulting to `"GPT-4"` when absent or empty), status
`queued` and progress unset. -/
def specStepOfContent (c : List Char) : Step :=
  { name := jsTrim (String.mk ((splitOnTriple ' ' '—' ' ' c).headD []))
    status := "queued"
    llm := jsTrim (jsOrStr (((splitOnTriple ' ' '—' ' ' c).map String.mk)[1]?) "GPT-4")
    progress := none
    duration := none }

theorem parseLine_eq_some_iff (l : String) (s : Step) :
    parseLine l = some s ↔
      ∃ c, lineContent l = some c ∧ s = specStepOfContent c := by
  unfold parseLine lineContent specStepOfContent
  cases hsp : splitOnPair '.' ' ' l.data with
  | nil => simp
  | cons a tl =>
      cases tl with
      | nil => simp
      | cons rest tl₂ =>
          simp only [List.getElem?_cons_succ, List.getElem?_cons_zero,
            Option.some.injEq]
          constructor
          · rintro h
            refine ⟨rest, rfl, ?_⟩
            cases hpp : splitOnTriple ' ' '—' ' ' rest with
            | nil => simp [hpp] at h ⊢; exact h.symm ▸ by simp [hpp]
            | cons p ps => exact h.symm ▸ by simp [hpp]
          · rintro ⟨c, hc, hs⟩
            subst hc
            cases hpp : splitOnTriple ' ' '—' ' ' rest with
            | nil => simp [hpp] at hs ⊢; exact hs.symm ▸ by simp
            | cons p ps => exact hs.symm ▸ by simp [hpp]

theorem parseAll_forall₂ (ls : List String) (ss : List Step)
    (h : parseAll ls = some ss) :
    List.Forall₂ (fun l s => parseLine l = some s) ls ss := by
  induction ls generalizing ss with
  | nil =>
      simp only [parseAll, Option.some.injEq] at h
      subst h
      exact List.Forall₂.nil
  | cons l ls ih =>
      simp only [parseAll] at h
      cases hl : parseLine l with
      | none => simp [hl] at h
      | some s =>
          rw [hl] at h
          cases hrest : parseAll ls with
          | none => simp [hrest] at h
          | some ss₂ =>
              rw [hrest] at h
              simp only [Option.some.injEq] at h
              subst h
              exact List.Forall₂.cons hl (ih ss₂ hrest)

theorem parseAll_status_queued (ls : List String) (ss : List Step)
    (h : parseAll ls = some ss) : ∀ s ∈ ss, s.status = "queued" := by
  induction ls generalizing ss with
  | nil =>
      simp only [parseAll, Option.some.injEq] at h
      subst h
      simp
  | cons l ls ih =>
      simp only [parseAll] at h
      cases hl : parseLine l with
      | none => simp [hl] at h
      | some s =>
          rw [hl] at h
          cases hrest : parseAll ls with
          | none => simp [hrest] at h
          | some ss₂ =>
              rw [hrest] at h
              simp only [Option.some.injEq] at h
              subst h
              intro x hx
              rcases List.mem_cons.1 hx with hx | hx
              · subst hx
                rcases (parseLine_eq_some_iff l x).1 hl with ⟨c, -, hc⟩
                simp [hc, specStepOfContent]
              · exact ih ss₂ hrest x hx

theorem splitLinesAux_append (xs : List Char) (ys acc : List Char)
    (h : ∀ c ∈ xs, c ≠ '\n') :
    splitLinesAux (xs ++ ys) acc = splitLinesAux ys (xs.reverse ++ acc) := by
  induction xs generalizing acc with
  | nil => simp
  | cons c cs ih =>
      simp only [List.cons_append, splitLinesAux, if_neg (h c (by simp)),
        List.append_eq, List.reverse_cons, List.append_assoc,
        List.singleton_append]
      exact ih (c :: acc) (fun a ha => h a (by simp [ha]))

theorem splitLinesAux_newline (ys acc : List Char) :
    splitLinesAux ('\n' :: ys) acc =
      String.mk acc.reverse :: splitLinesAux ys [] := by
  simp [splitLinesAux]

theorem testNumbered_cons (c : Char) (cs : List Char) :
    testNumbered (c :: cs) = (c.isDigit && digitsThenDot cs) := rfl

/-- Everything `planReply` appends after the input text. -/
def planTail : String :=
  "”:\n\n1. Ingest Inputs — GPT-4\n2. Plan & Branch — Claude Sonnet 4.5\n3. Execute Tools — Kimi K2\n4. Verify & Report — GPT-4\n\nYou can start as-is or ask me to adjust steps/LLMs."

/-- The lines of `planTail` after its first newline. -/
def planTailLines : List String :=
  ["", "1. Ingest Inputs — GPT-4", "2. Plan & Branch — Claude Sonnet 4.5",
   "3. Execute Tools — Kimi K2", "4. Verify & Report — GPT-4",
   "", "You can start as-is or ask me to adjust steps/LLMs."]

theorem planReply_eq (text : String) :
    planReply text = "Here is a concise pipeline for “" ++ text ++ planTail := by
  simp only [planReply, String.append_assoc, planTail]
  rfl

set_option maxRecDepth 4000 in
theorem splitLinesAux_planTail (acc : List Char) :
    splitLinesAux planTail.data acc =
      String.mk (acc.reverse ++ ['”', ':']) :: planTailLines := by
  show String.mk (':' :: '”' :: acc).reverse :: planTailLines =
    String.mk (acc.reverse ++ ['”', ':']) :: planTailLines
  congr 1
  simp

theorem splitLines_planReply (text : String) (h : ∀ c ∈ text.data, c ≠ '\n') :
    splitLines (planReply text) =
      String.mk ("Here is a concise pipeline for “".data ++ text.data ++
          ['”', ':']) :: planTailLines := by
  rw [splitLines, planReply_eq]
  rw [show ("Here is a concise pipeline for “" ++ text ++ planTail).data =
    "Here is a concise pipeline for “".data ++ (text.data ++ planTail.data) by
      simp [String.data_append]]
  rw [splitLinesAux_append _ _ _ (by decide)]
  rw [splitLinesAux_append _ _ _ h]
  rw [splitLinesAux_planTail]
  congr 1
  simp

theorem numberedLines_planReply (text : String) (h : ∀ c ∈ text.data, c ≠ '\n') :
    numberedLines (planReply text) =
      ["1. Ingest Inputs — GPT-4", "2. Plan & Branch — Claude Sonnet 4.5",
       "3. Execute Tools — Kimi K2", "4. Verify & Report — GPT-4"] := by
  rw [numberedLines, splitLines_planReply text h]
  rfl

theorem containsOneDot_planReply (text : String) :
    containsOneDot (planReply text).data = true := by
  rw [planReply_eq]
  rw [show ("Here is a concise pipeline for “" ++ text ++ planTail).data =
    "Here is a concise pipeline for “".data ++ (text.data ++ planTail.data) by
      simp [String.data_append]]
  exact containsOneDot_append_right _ _
    (containsOneDot_append_right _ _ (by decide))

/-! ## Claim theorems -/

/-- Claim C2 (code bug): `derivePipeline` is not exception-free.  On a
transcript whose ai message is `"1.foo"` — a line matching the numbered
filter `^\d+\.` but containing no `". "` — the destructured `rest` is
`undefined` and `rest.split(" — ")` throws a `TypeError`; the model
evaluates to `thrown` instead of degrading to the default worker label as
the specification demands. -/
theorem derivePipeline_throws_on_dotless_line :
    derivePipeline [{ role := "ai", text := "1.foo" }] = DeriveResult.thrown := rfl

/-- Claim C4: a tick leaves every task whose status is not `running`
entirely unchanged (same status, progress, steps and duration — the whole
task and even the random-draw index), for any number of consecutive
ticks; in particular a `complete` task is never resurrected. -/
theorem tick_skips_nonrunning (rng : ℕ → ℚ) (now : ℕ → ℤ) (t : Task) (i : ℕ)
    (h : t.status ≠ "running") (n : ℕ) :
    tickTaskIter rng now n (t, i) = (t, i) := by
  induction n with
  | zero => rfl
  | succ n ih =>
      show tickTaskIter rng now n (tickTask rng i (now n) t) = (t, i)
      rw [tickTask_not_running rng i (now n) t h, ih]

/-- Witness for C4: five ticks leave a concrete complete task unchanged. -/
theorem tick_skips_nonrunning_witness :
    tickTaskIter (fun _ => 1/2) (fun _ => 1000) 5
      ({ id := 3, name := "IT: Access Review Batch", status := "complete",
         progress := 100, user := "Ben", llm := "Kimi K2", startTime := 0,
         duration := some "12m 14s",
         steps := [{ name := "Export Accounts", status := "complete",
                     llm := "GPT-4", progress := some 100,
                     duration := some "3m 00s" }] }, 0) =
      ({ id := 3, name := "IT: Access Review Batch", status := "complete",
         progress := 100, user := "Ben", llm := "Kimi K2", startTime := 0,
         duration := some "12m 14s",
         steps := [{ name := "Export Accounts", status := "complete",
                     llm := "GPT-4", progress := some 100,
                     duration := some "3m 00s" }] }, 0) :=
  tick_skips_nonrunning _ _ _ _ (by decide) 5

/-- Claim C5: after a tick on a running task, the task is `complete`
exactly when all post-tick steps are `complete` or the incremented overall
progress reached 100; completion forces progress exactly 100; otherwise the
status stays `running`; and a task whose steps were already all complete
becomes complete within that one tick. -/
theorem tick_completion (rng : ℕ → ℚ) (i : ℕ) (now : ℤ) (t : Task)
    (h : t.status = "running") :
    ((tickTask rng i now t).1.status = "complete" ∨
      (tickTask rng i now t).1.status = "running") ∧
    ((tickTask rng i now t).1.status = "complete" ↔
      ((∀ s ∈ (tickTask rng i now t).1.steps, s.status = "complete") ∨
        100 ≤ t.progress + rng i * 6)) ∧
    ((tickTask rng i now t).1.status = "complete" →
      (tickTask rng i now t).1.progress = 100) ∧
    ((∀ s ∈ t.steps, s.status = "complete") →
      (tickTask rng i now t).1.status = "complete") := by
  have hne : ¬ t.status ≠ "running" := by simp [h]
  simp only [tickTask, if_neg hne]
  by_cases hc : (((tickSteps rng now t.startTime (min 100 (t.progress + rng i * 6))
        t.steps (i + 1)).1.all fun s => s.status == "complete")
      || decide (100 ≤ min 100 (t.progress + rng i * 6))) = true
  · simp only [hc, if_true]
    refine ⟨Or.inl trivial, ?_, fun _ => trivial, fun _ => trivial⟩
    refine iff_of_true trivial ?_
    rw [Bool.or_eq_true] at hc
    rcases hc with h₁ | h₂
    · exact Or.inl fun s hs => by simpa using List.all_eq_true.1 h₁ s hs
    · exact Or.inr (le_min_iff.1 (of_decide_eq_true h₂)).2
  · simp only [Bool.not_eq_true] at hc
    simp only [hc, Bool.false_eq_true, if_false]
    refine ⟨Or.inr trivial, ?_, ?_, ?_⟩
    · refine iff_of_false (by simp) ?_
      rintro (h₁ | h₂)
      · rw [show ((tickSteps rng now t.startTime
            (min 100 (t.progress + rng i * 6)) t.steps (i + 1)).1.all
              fun s => s.status == "complete") = true from
          List.all_eq_true.2 fun s hs => by simp [h₁ s hs]] at hc
        simp at hc
      · rw [show decide (100 ≤ min 100 (t.progress + rng i * 6)) = true from
          decide_eq_true (le_min_iff.2 ⟨le_refl 100, h₂⟩)] at hc
        simp at hc
    · intro habs
      exact absurd habs (by simp)
    · intro hall
      rw [tickSteps_all_complete rng now t.startTime _ t.steps (i + 1) hall] at hc
      rw [show (t.steps.all fun s => s.status == "complete") = true from
        List.all_eq_true.2 fun s hs => by simp [hall s hs]] at hc
      simp at hc

/-- Witness for C5: a concrete running task whose single step is already
complete flips to `complete` on the next tick. -/
theorem tick_completion_witness :
    (tickTask (fun _ => 1/2) 0 0
      { id := 7, name := "w", status := "running", progress := 42,
        user := "You", llm := "GPT-4", startTime := 0, duration := some "0s",
        steps := [{ name := "Parse PDFs", status := "complete", llm := "GPT-4",
                    progress := some 100, duration := none }] }).1.status =
      "complete" :=
  (tick_completion (fun _ => 1/2) 0 0 _ rfl).2.2.2 (by decide)

/-- Claim C8: `makeTask` with no explicit step sequence uses the fixed
four-stage default pipeline ("Ingest Requirements" running, three queued,
fixed worker labels), takes its llm from the first running step, sets
status `running`, progress 5, the creation timestamp, duration `"0s"`, and
issues the fresh identifier `c + 1` from the monotonic counter; a second
call on the returned counter issues the strictly larger `c + 2`. -/
theorem makeTask_default_spec (name user : String) (start : ℤ) (c : ℕ)
    (name₂ user₂ : String) (steps₂ : Option (List Step)) (start₂ : ℤ) :
    (makeTask name user none start c).1.steps = defaultPipeline ∧
    defaultPipeline.map (fun s => (s.name, s.status, s.llm)) =
      [("Ingest Requirements", "running", "GPT-4"),
       ("Spec Synthesis", "queued", "Claude Sonnet 4.5"),
       ("Ops Plan + Checks", "queued", "Kimi K2"),
       ("Execution & Verify", "queued", "GPT-4")] ∧
    (makeTask name user none start c).1.llm = "GPT-4" ∧
    (makeTask name user none start c).1.status = "running" ∧
    (makeTask name user none start c).1.progress = 5 ∧
    (makeTask name user none start c).1.startTime = start ∧
    (makeTask name user none start c).1.duration = some "0s" ∧
    (makeTask name user none start c).1.id = c + 1 ∧
    (makeTask name user none start c).2 = c + 1 ∧
    (makeTask name₂ user₂ steps₂ start₂ (makeTask name user none start c).2).1.id
      = c + 2 ∧
    (makeTask name user none start c).1.id <
      (makeTask name₂ user₂ steps₂ start₂ (makeTask name user none start c).2).1.id := by
  refine ⟨rfl, rfl, rfl, rfl, rfl, rfl, rfl, rfl, rfl, rfl, ?_⟩
  exact Nat.lt_succ_self _

/-- Claim C10: `makeTask` called with an explicitly supplied empty step
array keeps the empty array (it does not fall back to the default
pipeline), the llm falls back to `"GPT-4"`, and — the all-steps-complete
check being vacuously true on no steps — the very first tick sets the
progress of the task to 100 and its status to `complete`. -/
theorem makeTask_emptySteps_spec (name user : String) (start : ℤ) (c : ℕ)
    (rng : ℕ → ℚ) (i : ℕ) (now : ℤ) :
    (makeTask name user (some []) start c).1.steps = [] ∧
    (makeTask name user (some []) start c).1.llm = "GPT-4" ∧
    (tickTask rng i now (makeTask name user (some []) start c).1).1.status
      = "complete" ∧
    (tickTask rng i now (makeTask name user (some []) start c).1).1.progress
      = 100 := by
  refine ⟨rfl, rfl, ?_, ?_⟩ <;>
    simp [tickTask, makeTask, tickSteps]

theorem tickTaskIter_inRange (rng : ℕ → ℚ) (now : ℕ → ℤ) (n : ℕ)
    (p : Task × ℕ) (hr : ∀ m, 0 ≤ rng m) (hp : taskInRange p.1) :
    taskInRange (tickTaskIter rng now n p).1 := by
  induction n generalizing p with
  | zero => simpa [tickTaskIter] using hp
  | succ n ih =>
      exact ih (tickTask rng p.2 (now n) p.1)
        (tickTask_inRange rng p.2 (now n) p.1 hr hp)

/-- Claim C3: with the random source confined to `[0, 1)` as `Math.random`
is, ticking a task any number of times keeps its overall progress and the
progress of every one of its steps inside `[0, 100]`: each tick adds a
nonnegative amount below `6` to the progress of a running task and below
`10` to that of a running step, both capped at `100`, and promotion seeds
a value that is `5` or the prior in-range value. -/
theorem tick_progress_inRange (rng : ℕ → ℚ) (now : ℕ → ℤ) (hr : rngOk rng)
    (t : Task) (i : ℕ) (ht : taskInRange t) (n : ℕ) :
    taskInRange (tickTaskIter rng now n (t, i)).1 :=
  tickTaskIter_inRange rng now n (t, i) (fun m => (hr m).1) ht

/-- Witness for C3: after three ticks of a concrete running task the
overall progress is still within `[0, 100]`. -/
theorem tick_progress_inRange_witness :
    0 ≤ ((tickTaskIter (fun _ => 1/2) (fun _ => 0) 3
      ({ id := 1, name := "Reconcile Q3 Invoices", status := "running",
         progress := 42, user := "You", llm := "GPT-4", startTime := 0,
         duration := some "5m 0s",
         steps := [{ name := "Vendor Matching", status := "running",
                     llm := "Claude Sonnet 4.5", progress := some 35,
                     duration := none },
                   { name := "Anomaly Check", status := "queued",
                     llm := "Kimi K2", progress := none,
                     duration := none }] }, 0)).1).progress ∧
    ((tickTaskIter (fun _ => 1/2) (fun _ => 0) 3
      ({ id := 1, name := "Reconcile Q3 Invoices", status := "running",
         progress := 42, user := "You", llm := "GPT-4", startTime := 0,
         duration := some "5m 0s",
         steps := [{ name := "Vendor Matching", status := "running",
                     llm := "Claude Sonnet 4.5", progress := some 35,
                     duration := none },
                   { name := "Anomaly Check", status := "queued",
                     llm := "Kimi K2", progress := none,
                     duration := none }] }, 0)).1).progress ≤ 100 :=
  (tick_progress_inRange (fun _ => 1/2) (fun _ => 0)
    (fun n => by norm_num) _ 0
    (by refine ⟨by norm_num, ?_⟩
        intro s hs
        rcases List.mem_cons.1 hs with hs | hs
        · subst hs
          intro p hp
          simp only [Option.mem_def, Option.some.injEq] at hp
          subst hp
          norm_num
        · rw [List.mem_singleton] at hs
          subst hs
          intro p hp
          simp at hp) 3).1

/-- Claim C9 counterexample: the claim says a promoted queued step is
seeded at its prior progress value ("or 5 if unset"), but for a queued
step whose prior progress is the set value `0`, promotion seeds `5`
(JS `step.progress || 5` treats `0` as falsy), not the prior value `0`. -/
theorem tickStep_zeroProgress_seed_cex :
    (tickStep (fun _ => 4/5) 0 0 50
        { name := "Anomaly Check", status := "queued", llm := "Kimi K2",
          progress := some 0, duration := none } 1).1.status = "running" ∧
    (tickStep (fun _ => 4/5) 0 0 50
        { name := "Anomaly Check", status := "queued", llm := "Kimi K2",
          progress := some 0, duration := none } 1).1.progress ≠ some 0 ∧
    (tickStep (fun _ => 4/5) 0 0 50
        { name := "Anomaly Check", status := "queued", llm := "Kimi K2",
          progress := some 0, duration := none } 1).1.progress = some 5 := by
  have h : tickStep (fun _ => 4/5) 0 0 50
      { name := "Anomaly Check", status := "queued", llm := "Kimi K2",
        progress := some 0, duration := none } 1 =
      ({ name := "Anomaly Check", status := "running", llm := "Kimi K2",
         progress := some 5, duration := some (calcDuration 0 0) }, 2) := by
    rw [tickStep, if_neg (by simp), if_pos rfl, if_pos (by norm_num),
      if_pos (by norm_num)]
    rfl
  rw [h]
  refine ⟨rfl, by simp, rfl⟩

/-- Claim C9 (amended): during a tick a `complete` step is unchanged; a
`queued` step is unchanged (consuming no random draw) when the
incremented overall task progress is at most 10, unchanged (one draw)
when the draw is at most 0.7, and promoted to `running` exactly when the
progress exceeds 10 and the draw exceeds 0.7 — its progress then seeded at
its prior value, or 5 if that value is unset *or equal to 0*, with
duration tracking begun. -/
theorem tickStep_queued_amended (rng : ℕ → ℚ) (now start : ℤ) (progress : ℚ)
    (s : Step) (i : ℕ) :
    (s.status = "complete" → tickStep rng now start progress s i = (s, i)) ∧
    (s.status = "queued" →
      (progress ≤ 10 → tickStep rng now start progress s i = (s, i)) ∧
      (10 < progress → rng i ≤ 7/10 →
        tickStep rng now start progress s i = (s, i + 1)) ∧
      (10 < progress → 7/10 < rng i →
        tickStep rng now start progress s i =
          ({ s with status := "running"
                    progress := some (match s.progress with
                                      | none => 5
                                      | some p => if p = 0 then 5 else p)
                    duration := some (calcDuration start now) }, i + 1))) := by
  constructor
  · intro hs
    exact tickStep_complete rng now start progress s i hs
  · intro hs
    refine ⟨?_, ?_, ?_⟩
    · intro hp
      rw [tickStep, if_neg (by simp [hs]), if_pos hs, if_neg (not_lt.2 hp)]
    · intro hp hr
      rw [tickStep, if_neg (by simp [hs]), if_pos hs, if_pos hp,
        if_neg (not_lt.2 hr)]
    · intro hp hr
      rw [tickStep, if_neg (by simp [hs]), if_pos hs, if_pos hp, if_pos hr]
      rfl

/-- Witness for C9: a queued step with unset progress in a task at overall
progress 50 is promoted by the draw 0.8 and seeded at 5. -/
theorem tickStep_queued_amended_witness :
    tickStep (fun _ => 4/5) 0 0 50
        { name := "Score Vendors", status := "queued",
          llm := "Claude Sonnet 4.5", progress := none, duration := none } 2 =
      ({ name := "Score Vendors", status := "running",
         llm := "Claude Sonnet 4.5", progress := some 5,
         duration := some (calcDuration 0 0) }, 3) :=
  ((tickStep_queued_amended (fun _ => 4/5) 0 0 50
      { name := "Score Vendors", status := "queued",
        llm := "Claude Sonnet 4.5", progress := none, duration := none }
      2).2 rfl).2.2 (by norm_num) (by norm_num)

/-- Claim C1 counterexample: the transcript whose single ai message is
`"see item 1. here"` has no line beginning with the characters `"1."`
(the substring only occurs mid-line), yet `derivePipeline` does not
produce `none` — the message is selected by the unanchored `/1\./` test
and an empty step array is returned. -/
theorem derivePipeline_midline_selected_cex :
    (∀ l ∈ splitLines "see item 1. here", l.data.take 2 ≠ ['1', '.']) ∧
    derivePipeline [{ role := "ai", text := "see item 1. here" }] ≠
      DeriveResult.noPlan := by decide

/-- Claim C1 (amended): scanning from most recent to oldest,
`derivePipeline` selects the first ai-authored message whose text contains
the two-character substring `"1."` *anywhere* (not necessarily at the
start of a line); it returns `none` exactly when no ai message contains
that substring, and the result is otherwise fully determined by the
selected message. -/
theorem derivePipeline_selection_amended (messages : List Message) :
    (derivePipeline messages = DeriveResult.noPlan ↔
      ∀ m ∈ messages, m.role = "ai" →
        ∀ l r, m.text.data ≠ l ++ '1' :: '.' :: r) ∧
    (∀ (pre post : List Message) (m : Message),
      messages = pre ++ m :: post → m.role = "ai" →
      (∃ l r, m.text.data = l ++ '1' :: '.' :: r) →
      (∀ m₂ ∈ post, ¬ (m₂.role = "ai" ∧
        ∃ l r, m₂.text.data = l ++ '1' :: '.' :: r)) →
      derivePipeline messages = derivePipeline [m]) := by
  constructor
  · rw [derivePipeline_eq_noPlan_iff]
    unfold planMessage
    rw [List.find?_eq_none]
    constructor
    · intro h m hm hrole l r habs
      apply h m (List.mem_reverse.2 hm)
      simp only [Bool.and_eq_true, beq_iff_eq]
      exact ⟨hrole, (containsOneDot_iff _).2 ⟨l, r, habs⟩⟩
    · intro h m hm hp
      simp only [Bool.and_eq_true, beq_iff_eq] at hp
      rcases (containsOneDot_iff _).1 hp.2 with ⟨l, r, habs⟩
      exact h m (List.mem_reverse.1 hm) hp.1 l r habs
  · intro pre post m hmsg hrole hsub hpost
    subst hmsg
    rcases hsub with ⟨l, r, hlr⟩
    have h₁ : planMessage (pre ++ m :: post) = some m :=
      planMessage_middle pre post m hrole
        ((containsOneDot_iff _).2 ⟨l, r, hlr⟩)
        (fun m₂ h₂ hx =>
          hpost m₂ h₂ ⟨hx.1, (containsOneDot_iff _).1 hx.2⟩)
    have h₂ : planMessage [m] = some m :=
      planMessage_middle [] [] m hrole
        ((containsOneDot_iff _).2 ⟨l, r, hlr⟩) (by simp)
    simp only [derivePipeline, h₁, h₂]

/-- Witness for C1: with a trailing user message after the ai plan, the
result of the deriver equals the result on the ai plan alone. -/
theorem derivePipeline_selection_amended_witness :
    derivePipeline [{ role := "ai", text := "1. A — B" },
                    { role := "user", text := "ok" }] =
      derivePipeline [{ role := "ai", text := "1. A — B" }] :=
  (derivePipeline_selection_amended _).2 []
    [{ role := "user", text := "ok" }] { role := "ai", text := "1. A — B" }
    rfl rfl ⟨[], " A — B".data, by decide⟩
    (by intro m₂ h₂ hx
        rw [List.mem_singleton] at h₂
        subst h₂
        exact absurd hx.1 (by decide))

/-- Claim C6 counterexample: on the line `"1. End. Start — X"` the claim
predicts the step name `"End. Start"` with label `"X"` (split the rest of
the line on `" — "`), but the source destructuring takes only the piece
between the first and second `". "` occurrence, producing name `"End"`
and the fallback label `"GPT-4"`. -/
theorem derivePipeline_dropsSecondSegment_cex :
    derivePipeline [{ role := "ai", text := "1. End. Start — X" }] =
      DeriveResult.derived
        [{ name := "End", status := "running", llm := "GPT-4",
           progress := none, duration := none }] ∧
    derivePipeline [{ role := "ai", text := "1. End. Start — X" }] ≠
      DeriveResult.derived
        [{ name := "End. Start", status := "running", llm := "X",
           progress := none, duration := none }] := by decide

/-- Claim C6 (amended): from the selected message, every line matching
`^\d+\.` is kept in order; the content of each kept line is the second
component of its `". "`-split (text after a second `". "` occurrence is
dropped; a line with no `". "` throws, cf. C2); the content is split on
`" — "` into a trimmed name and a trimmed label defaulting to `"GPT-4"`
when the separator is absent or the piece empty; each step starts
`queued` with progress unset and the first is then set `running`. -/
theorem derivePipeline_lineParse_amended (messages : List Message)
    (m : Message) (hm : planMessage messages = some m) (steps : List Step)
    (hp : parseAll (numberedLines m.text) = some steps) :
    derivePipeline messages = DeriveResult.derived (setFirstRunning steps) ∧
    List.Forall₂ (fun l s => ∃ c, lineContent l = some c ∧
      s = specStepOfContent c) (numberedLines m.text) steps ∧
    ∀ (k : ℕ) (hk : k < (setFirstRunning steps).length),
      ((setFirstRunning steps).get ⟨k, hk⟩).status =
        if k = 0 then "running" else "queued" := by
  refine ⟨by simp [derivePipeline, hm, hp], ?_, ?_⟩
  · exact (parseAll_forall₂ _ _ hp).imp fun l s hls =>
      (parseLine_eq_some_iff l s).1 hls
  · intro k hk
    have hq : ∀ s ∈ steps, s.status = "queued" :=
      parseAll_status_queued _ _ hp
    cases steps with
    | nil => simp [setFirstRunning] at hk
    | cons s ss =>
        cases k with
        | zero => rfl
        | succ k =>
            have hk' : k < ss.length := by
              simpa [setFirstRunning] using Nat.lt_of_succ_lt_succ hk
            rw [if_neg (Nat.succ_ne_zero k)]
            have hget : (setFirstRunning (s :: ss)).get ⟨k + 1, hk⟩ =
              ss.get ⟨k, hk'⟩ := rfl
            rw [hget]
            exact hq _ (List.mem_cons_of_mem _ (ss.get_mem _ _))

/-- Witness for C6 at a two-line plan, one line with the label separator
and one without. -/
theorem derivePipeline_lineParse_amended_witness :
    derivePipeline [{ role := "ai", text := "1. A — B\n2. C" }] =
      DeriveResult.derived (setFirstRunning
        [{ name := "A", status := "queued", llm := "B", progress := none,
           duration := none },
         { name := "C", status := "queued", llm := "GPT-4", progress := none,
           duration := none }]) :=
  (derivePipeline_lineParse_amended
    [{ role := "ai", text := "1. A — B\n2. C" }]
    { role := "ai", text := "1. A — B\n2. C" } rfl
    [{ name := "A", status := "queued", llm := "B", progress := none,
       duration := none },
     { name := "C", status := "queued", llm := "GPT-4", progress := none,
       duration := none }] rfl).1

/-- Claim C7 counterexample: the round trip does not hold for *every*
input text — a description containing an embedded newline that itself
looks like a numbered line is parsed back as a fifth step, so the derived
pipeline is not the fixed four-step plan. -/
theorem planReply_roundTrip_cex :
    derivePipeline [{ role := "ai", text := planReply "x\n5. Extra — Zed" }] ≠
      DeriveResult.derived
        [{ name := "Ingest Inputs", status := "running", llm := "GPT-4",
           progress := none, duration := none },
         { name := "Plan & Branch", status := "queued",
           llm := "Claude Sonnet 4.5", progress := none, duration := none },
         { name := "Execute Tools", status := "queued", llm := "Kimi K2",
           progress := none, duration := none },
         { name := "Verify & Report", status := "queued", llm := "GPT-4",
           progress := none, duration := none }] := by decide

/-- Claim C7 (amended): for every newline-free input text, `planReply`
produces the four-line numbered proposal and `derivePipeline`, run on any
transcript whose most recent ai message is that reply, parses it back to
exactly the four steps "Ingest Inputs — GPT-4", "Plan & Branch — Claude
Sonnet 4.5", "Execute Tools — Kimi K2", "Verify & Report — GPT-4", the
first `running` and the rest `queued`. -/
theorem planReply_roundTrip (text : String) (pre post : List Message)
    (hnl : ∀ c ∈ text.data, c ≠ '\n')
    (hpost : ∀ m ∈ post, m.role ≠ "ai") :
    derivePipeline (pre ++ { role := "ai", text := planReply text } :: post) =
      DeriveResult.derived
        [{ name := "Ingest Inputs", status := "running", llm := "GPT-4",
           progress := none, duration := none },
         { name := "Plan & Branch", status := "queued",
           llm := "Claude Sonnet 4.5", progress := none, duration := none },
         { name := "Execute Tools", status := "queued", llm := "Kimi K2",
           progress := none, duration := none },
         { name := "Verify & Report", status := "queued", llm := "GPT-4",
           progress := none, duration := none }] := by
  have hsel : planMessage
      (pre ++ { role := "ai", text := planReply text } :: post) =
      some { role := "ai", text := planReply text } :=
    planMessage_middle pre post _ rfl (containsOneDot_planReply text)
      (fun m₂ h₂ hx => hpost m₂ h₂ hx.1)
  simp only [derivePipeline, hsel]
  rw [numberedLines_planReply text hnl]
  rfl

/-- Witness for C7 at the input `"Audit Logs"` and a singleton transcript. -/
theorem planReply_roundTrip_witness :
    derivePipeline [{ role := "ai", text := planReply "Audit Logs" }] =
      DeriveResult.derived
        [{ name := "Ingest Inputs", status := "running", llm := "GPT-4",
           progress := none, duration := none },
         { name := "Plan & Branch", status := "queued",
           llm := "Claude Sonnet 4.5", progress := none, duration := none },
         { name := "Execute Tools", status := "queued", llm := "Kimi K2",
           progress := none, duration := none },
         { name := "Verify & Report", status := "queued", llm := "GPT-4",
           progress := none, duration := none }] :=
  planReply_roundTrip "Audit Logs" [] [] (by decide) (by simp)

end OpsCore
